import Mathlib

/-!
Verification of the local data layer of the negative-visualization journal app:
streak engine, local-date computation, prompt scheduler/swap protocol, PIN
hashing/verification, telemetry milestone triggers, and the export sanitizer.

Shallow embedding conventions
* Calendar dates (`YYYY-MM-DD` strings in the source) are modelled as `Int`
  day numbers; the bijection between well-formed date strings and day numbers
  preserves equality and the "previous day" relation, which is all the code
  uses.
* Instants (JS `Date` / epoch milliseconds) are modelled as `Int` minutes
  since the epoch; `getTimezoneOffset()` is a parameter `offset` in minutes
  (UTC minus local, as in JS), so the local wall time of instant `t` is
  `t - offset` and local-timezone `Date` accessors on an instant `t` yield
  the calendar day `(t - offset).fdiv 1440` (1440 minutes per day).
* JS numbers are modelled as `Int` (the code only produces integers here);
  `%` on possibly-negative operands is `Int.tmod` (JS remainder truncates).
* Fallible JS code (`throw` / `try`-`catch`) is modelled with `Except`;
  a JS array access that can yield `undefined` is modelled with `Option`.
-/

namespace NegVizJournal

/-! ## Data model (src/lib/database.ts interfaces) -/

inductive Theme where
  | light | dark | system
deriving DecidableEq, Repr

inductive PromptSource where
  | seed | user
deriving DecidableEq, Repr

/-- The `Settings` row (singleton, id = "main") of src/lib/database.ts,
including the telemetry fields declared in src/lib/telemetry.ts.
Optional interface fields are `Option`; a stored object has the
corresponding key exactly when the value is `some`. -/
structure Settings where
  id : String
  pinSalt : Option String
  pinIterations : Option Int
  pinHash : Option String
  lockTimeoutMinutes : Int
  dailyCueTime : Option String
  dailyCueEnabled : Bool
  notificationsEnabled : Bool
  telemetryOptIn : Bool
  telemetryAnonId : Option String
  telemetryActivationSent : Option Bool
  telemetryConsecutiveDays : Option Int
  telemetryLastCompletionDate : Option Int
  telemetryD7EventSent : Option Bool
  swapUsedDate : Option Int
  lastPromptDate : Option Int
  lastPromptId : Option String
  installAt : Int
  currentTheme : Theme
deriving DecidableEq, Repr

/-- The `Prompt` row of src/lib/database.ts. -/
structure Prompt where
  id : String
  text : String
  gratitude_prompt : Option String
  archived : Bool
  created_at : String
  source : PromptSource
deriving DecidableEq, Repr

/-- The `Entry` row of src/lib/database.ts. -/
structure Entry where
  id : String
  dateLocal : Int
  prompt_id : String
  setback : String
  protective_step : String
  gratitude : String
  created_at : String
  edited_at : Option String
  duration_seconds : Option Int
deriving DecidableEq, Repr

/-- The `StreakSummary` row (singleton, id = "main") of src/lib/database.ts.
`start_date` is an ISO timestamp in the source, modelled as the `Int`
instant that produced it. -/
structure StreakSummary where
  id : String
  start_date : Int
  current_streak : Int
  longest_streak : Int
  last_entry_date : Option Int
deriving DecidableEq, Repr

/-- The four Dexie tables of `JournalDB`.  The two singleton tables hold at
most the `"main"` row, modelled as an `Option`; `prompts` and `entries` are
row lists (insertion order; no operation below depends on the order). -/
structure DB where
  settingsTable : Option Settings
  promptsTable : List Prompt
  entriesTable : List Entry
  streakTable : Option StreakSummary
deriving DecidableEq, Repr

/-- The empty database (all four tables empty), the state before any
initialization has run. -/
def emptyDB : DB := ⟨none, [], [], none⟩

/-- `db.entries.put` / `db.entries.add` for a fresh id: inserts the row. -/
def addEntry (db : DB) (e : Entry) : DB :=
  { db with entriesTable := e :: db.entriesTable }

/-- `db.entries.where('dateLocal').equals(d).count()`. -/
def countEntriesForDate (db : DB) (d : Int) : Nat :=
  db.entriesTable.countP (fun e => e.dateLocal == d)

/-! ## Reachable database states (for the invariant claim)

`ReachDB db` holds when `db` can be produced from the empty store by the
core streak operations (claim C3's `initializeStreakSummary`,
`updateStreak`, `validateAndRecoverStreakData`, `resetStreakData`, declared
below) together with the writes other components perform: saving entries,
and arbitrary writes to the settings and prompts tables (which never touch
the streak-summary table). -/

/-- The strengthened streak-summary invariant used to prove claim C3: the
claimed inequality plus the auxiliary fact that once `last_entry_date` is
set the current streak is at least 1 (needed to carry the inequality
through `updateStreak`'s gap branch, which resets `current_streak` to 1
and leaves `longest_streak` alone). -/
def streakStrongInv (s : StreakSummary) : Prop :=
  0 ≤ s.current_streak ∧ s.current_streak ≤ s.longest_streak ∧
    (s.last_entry_date ≠ none → 1 ≤ s.current_streak)

/-! ## Local date computation (dbUtils.getTodayLocal) -/

/-- The calendar day index of instant `t` (minutes since epoch) in the
timezone whose `getTimezoneOffset()` is `offset` minutes: local wall time is
`t - offset`, and its calendar day is the floor division by 1440 minutes.
This is what local-timezone `Date` accessors (`getFullYear`/`getMonth`/
`getDate`) report for instant `t`, and it is the claim's specified meaning
of "the calendar date of that instant in the device's local timezone". -/
def localCalendarDay (t offset : Int) : Int := (t - offset).fdiv 1440

/-- Embeds `dbUtils.getTodayLocal` (src/lib/database.ts lines 174-190): it
builds the shifted instant `new Date(now.getTime() - offset * 60000)` and
then reads that date's LOCAL accessors, i.e. reports the local calendar day
of the shifted instant `t - offset`. -/
def getTodayLocal (t offset : Int) : Int := localCalendarDay (t - offset) offset

/-! ## Streak engine (dbUtils) -/

/-- `dbUtils.initializeStreakSummary`: returns the existing `"main"` row, or
creates and persists a fresh summary with both counters 0 and no
`last_entry_date`.  `now` is the instant used for `new Date().toISOString()`. -/
def initializeStreakSummary (db : DB) (now : Int) : DB × StreakSummary :=
  match db.streakTable with
  | some existing => (db, existing)
  | none =>
    let newStreak : StreakSummary :=
      { id := "main", start_date := now, current_streak := 0, longest_streak := 0,
        last_entry_date := none }
    ({ db with streakTable := some newStreak }, newStreak)

/-- Result record of `dbUtils.updateStreak`. -/
structure UpdateStreakResult where
  updated : Bool
  isFirstToday : Bool
  streakData : StreakSummary
deriving DecidableEq, Repr

/-- Embeds `dbUtils.updateStreak(entryDate)` (src/lib/database.ts lines
294-335), invoked right after the day's entry was saved.  `today` is the
local calendar day of the wall clock (the source computes `yesterdayLocal`
from `new Date()` local accessors, hence `today - 1`); `now` is the instant
stored into `start_date`. -/
def updateStreak (db : DB) (entryDate today now : Int) : DB × UpdateStreakResult :=
  let p := initializeStreakSummary db now
  let db := p.1
  let streak := p.2
  let yesterdayLocal := today - 1
  let existingEntryToday := countEntriesForDate db entryDate
  let isFirstToday := existingEntryToday == 1
  if !isFirstToday then
    (db, { updated := false, isFirstToday := false, streakData := streak })
  else
    let streak :=
      if streak.last_entry_date = none then
        -- First entry ever
        { streak with current_streak := 1, longest_streak := 1, start_date := now }
      else if streak.last_entry_date = some yesterdayLocal then
        -- Consecutive day
        { streak with current_streak := streak.current_streak + 1,
                      longest_streak := max streak.longest_streak (streak.current_streak + 1) }
      else if streak.last_entry_date ≠ some entryDate then
        -- Gap in streak, reset
        { streak with current_streak := 1, start_date := now }
      else
        -- last_entry_date = entryDate: already counted today
        streak
    let streak := { streak with last_entry_date := some entryDate }
    ({ db with streakTable := some streak },
     { updated := true, isFirstToday := true, streakData := streak })

/-- Result record of `dbUtils.validateAndRecoverStreakData`. -/
structure ValidateResult where
  isValid : Bool
  recovered : Bool
  streak : StreakSummary
deriving DecidableEq, Repr

/-- Embeds `dbUtils.validateAndRecoverStreakData` (src/lib/database.ts lines
193-232).  The `typeof ... !== 'number'` checks cannot fire in this model
(counters are `Int`); `x || 0` on a finite JS number is the identity except
at 0 where it is still 0, so on `Int` it is dropped. -/
def validateAndRecoverStreakData (db : DB) (now : Int) : DB × ValidateResult :=
  match db.streakTable with
  | none =>
    let p := initializeStreakSummary db now
    (p.1, { isValid := false, recovered := true, streak := p.2 })
  | some streak =>
    if streak.current_streak < 0 || streak.longest_streak < 0 ||
       streak.current_streak > streak.longest_streak then
      let recoveredStreak : StreakSummary :=
        { id := "main"
          start_date := streak.start_date
          current_streak := max 0 (min streak.current_streak streak.longest_streak)
          longest_streak := max 0 (max streak.longest_streak streak.current_streak)
          last_entry_date := streak.last_entry_date }
      ({ db with streakTable := some recoveredStreak },
       { isValid := false, recovered := true, streak := recoveredStreak })
    else
      (db, { isValid := true, recovered := false, streak := streak })

/-- The backup string `backup_streak_${Date.now()}_${JSON.stringify(currentStreak)}`
written by `resetStreakData`; the exact rendering of the serialized summary is
immaterial to the claims, only that it is a deterministic function of both. -/
def backupString (now : Int) (s : StreakSummary) : String :=
  "backup_streak_" ++ toString now ++ "_" ++
    toString s.start_date ++ "," ++ toString s.current_streak ++ "," ++
    toString s.longest_streak ++ "," ++
    (match s.last_entry_date with
     | some d => toString d
     | none => "")

/-- Embeds `dbUtils.resetStreakData` (src/lib/database.ts lines 359-389):
backs the prior summary up into `settings.lastPromptId`, then persists a
zeroed summary.  Returns `true` (the storage layer is modelled as not
throwing). -/
def resetStreakData (db : DB) (now : Int) : DB × Bool :=
  let db :=
    match db.streakTable, db.settingsTable with
    | some currentStreak, some settings =>
      let backed := { settings with lastPromptId := some (backupString now currentStreak) }
      { db with settingsTable := some backed }
    | _, _ => db
  let resetStreak : StreakSummary :=
    { id := "main", start_date := now, current_streak := 0, longest_streak := 0,
      last_entry_date := none }
  ({ db with streakTable := some resetStreak }, true)

/-- Database states reachable through the core streak operations plus the
other components' table writes (see the section comment above). -/
inductive ReachDB : DB → Prop where
  | base : ReachDB emptyDB
  | save (db : DB) (e : Entry) : ReachDB db → ReachDB (addEntry db e)
  | settingsWrite (db : DB) (st : Option Settings) :
      ReachDB db → ReachDB { db with settingsTable := st }
  | promptsWrite (db : DB) (ps : List Prompt) :
      ReachDB db → ReachDB { db with promptsTable := ps }
  | initStreak (db : DB) (now : Int) :
      ReachDB db → ReachDB (initializeStreakSummary db now).1
  | update (db : DB) (entryDate today now : Int) :
      ReachDB db → ReachDB (updateStreak db entryDate today now).1
  | validate (db : DB) (now : Int) :
      ReachDB db → ReachDB (validateAndRecoverStreakData db now).1
  | reset (db : DB) (now : Int) :
      ReachDB db → ReachDB (resetStreakData db now).1

/-! ## Prompt scheduler (promptUtils, src/unnamed/part_012) -/

/-- One element of the `SEED_PROMPTS` catalog (text plus gratitude prompt). -/
structure SeedPrompt where
  text : String
  gratitude_prompt : String
deriving DecidableEq, Repr

/-- The fixed `SEED_PROMPTS` catalog. -/
def SEED_PROMPTS : List SeedPrompt := [
  { text := "Imagine losing your current home or living situation",
    gratitude_prompt := "What aspects of your current living situation do you appreciate most?" },
  { text := "Consider if you lost your ability to communicate with loved ones",
    gratitude_prompt := "Who in your life are you most grateful to be able to connect with?" },
  { text := "Visualize losing your current health and mobility",
    gratitude_prompt := "What physical abilities or aspects of your health do you value most?" },
  { text := "Imagine your primary source of income disappearing",
    gratitude_prompt := "What opportunities or resources do you currently have that support you?" },
  { text := "Consider losing access to the internet and digital connections",
    gratitude_prompt := "What digital tools or online communities add value to your life?" },
  { text := "Visualize losing your independence and needing constant care",
    gratitude_prompt := "What aspects of your independence and autonomy do you cherish?" },
  { text := "Imagine being unable to pursue your hobbies or interests",
    gratitude_prompt := "What activities or interests bring you the most joy and fulfillment?" },
  { text := "Consider losing your ability to learn new things",
    gratitude_prompt := "What recent learning or growth experiences have you valued?" },
  { text := "Visualize losing access to nature and the outdoors",
    gratitude_prompt := "What aspects of the natural world do you find most meaningful?" },
  { text := "Imagine being unable to help or support others",
    gratitude_prompt := "How has being able to contribute to others' lives enriched your own?" }]

/-- `promptUtils.pseudoRandom`: the linear congruential step
`(1664525 * seed + 1013904223) % 2^32`.  JS `%` truncates, so a negative
seed can yield a negative value; `Int.tmod` has exactly that behavior. -/
def pseudoRandom (seed : Int) : Int :=
  (1664525 * seed + 1013904223).tmod 4294967296

/-- JS array indexing `xs[i]` for a possibly negative (or out of range)
index `i`: yields `undefined`, modelled as `none`. -/
def jsIndex (xs : List α) (i : Int) : Option α :=
  if 0 ≤ i then xs.get? i.toNat else none

/-- `daysSinceInstall = Math.floor((today.getTime() - installDate.getTime()) / day)`
with instants in minutes (1440 minutes per day). -/
def daysSinceInstall (installT nowT : Int) : Int := (nowT - installT).fdiv 1440

/-- Embeds `promptUtils.getTodayPrompt(installDate, prompts)`:
`.error` models the `throw new Error('No seed prompts available')`;
`.ok none` models the function returning `undefined` (the unchecked
`seedPrompts[index]` access with an out-of-range index). -/
def getTodayPrompt (installT nowT : Int) (prompts : List Prompt) :
    Except String (Option Prompt) :=
  let seedPrompts := prompts.filter (fun p => p.source == PromptSource.seed && !p.archived)
  if seedPrompts.length = 0 then
    Except.error "No seed prompts available"
  else
    let index := (pseudoRandom (daysSinceInstall installT nowT)).tmod (seedPrompts.length : Int)
    Except.ok (jsIndex seedPrompts index)

/-- Embeds `promptUtils.getSwapPrompt(currentPromptId, lastPromptId, prompts)`.
`Math.floor(Math.random() * seedPrompts.length)` is an arbitrary index below
the length, modelled as `rand % length` for a caller-supplied `rand`.
`.error` models the `throw new Error('Current prompt not found')`. -/
def getSwapPrompt (currentPromptId : String) (lastPromptId : Option String)
    (prompts : List Prompt) (rand : Nat) : Except String Prompt :=
  let seedPrompts := prompts.filter (fun p =>
    p.source == PromptSource.seed && !p.archived &&
    p.id != currentPromptId && some p.id != lastPromptId)
  if h : seedPrompts.length = 0 then
    match prompts.find? (fun p => p.id == currentPromptId) with
    | none => Except.error "Current prompt not found"
    | some current => Except.ok current
  else
    Except.ok (seedPrompts.get ⟨rand % seedPrompts.length,
      Nat.mod_lt _ (Nat.pos_of_ne_zero h)⟩)

/-- `promptUtils.getTodayString` / the date string built inside
`canSwapToday`: the current LOCAL calendar date from plain local `Date`
accessors, i.e. the local calendar day of the instant `nowT`. -/
def getTodayString (nowT offset : Int) : Int := localCalendarDay nowT offset

/-- `promptUtils.canSwapToday(swapUsedDate)`: `swapUsedDate !== todayString`
(an absent `swapUsedDate` is `undefined`, which never equals a date string). -/
def canSwapToday (swapUsedDate : Option Int) (nowT offset : Int) : Bool :=
  swapUsedDate != some (getTodayString nowT offset)

/-- Result record of `promptUtils.swapTodayPrompt`. -/
structure SwapResult where
  success : Bool
  newPrompt : Option Prompt
  error : Option String
deriving DecidableEq, Repr

/-- Embeds `promptUtils.swapTodayPrompt(installDate)` (src/unnamed/part_012
lines 113-154).  The whole body is in a `try`; a thrown error (from
`getTodayPrompt` with an empty active seed catalog, from `currentPrompt.id`
when `getTodayPrompt` returned `undefined`, or from `getSwapPrompt`) lands
in the `catch`, which returns a failure result without touching the store. -/
def swapTodayPrompt (db : DB) (installT nowT offset : Int) (rand : Nat) :
    DB × SwapResult :=
  match db.settingsTable with
  | none => (db, { success := false, newPrompt := none, error := some "Settings not found" })
  | some settings =>
    if !canSwapToday settings.swapUsedDate nowT offset then
      (db, { success := false, newPrompt := none,
             error := some "You can only swap once per day. Try again tomorrow." })
    else
      let allPrompts := db.promptsTable
      match getTodayPrompt installT nowT allPrompts with
      | Except.error _ =>
        (db, { success := false, newPrompt := none,
               error := some "Failed to swap prompt. Please try again." })
      | Except.ok none =>
        (db, { success := false, newPrompt := none,
               error := some "Failed to swap prompt. Please try again." })
      | Except.ok (some currentPrompt) =>
        match getSwapPrompt currentPrompt.id settings.lastPromptId allPrompts rand with
        | Except.error _ =>
          (db, { success := false, newPrompt := none,
                 error := some "Failed to swap prompt. Please try again." })
        | Except.ok newPrompt =>
          if newPrompt.id == currentPrompt.id then
            (db, { success := false, newPrompt := none,
                   error := some "No alternative prompts available for swap" })
          else
            let todayString := getTodayString nowT offset
            let updated := { settings with
              swapUsedDate := some todayString,
              lastPromptDate := some todayString,
              lastPromptId := some newPrompt.id }
            ({ db with settingsTable := some updated },
             { success := true, newPrompt := some newPrompt, error := none })

/-- Embeds `promptUtils.getFallbackPrompt(installDate)`: the deterministic
selection over the in-memory `SEED_PROMPTS`.  An out-of-range index makes
`selectedSeed.text` throw, which the inner `catch` turns into the ultimate
fallback built from `SEED_PROMPTS[0]`.  Total by construction. -/
def getFallbackPrompt (installT nowT : Int) : Prompt :=
  let index := (pseudoRandom (daysSinceInstall installT nowT)).tmod (SEED_PROMPTS.length : Int)
  match jsIndex SEED_PROMPTS index with
  | some selectedSeed =>
    { id := "seed-" ++ toString (index + 1)
      text := selectedSeed.text
      gratitude_prompt := some selectedSeed.gratitude_prompt
      archived := false
      source := PromptSource.seed
      created_at := toString nowT }
  | none =>
    { id := "fallback-1"
      text := (SEED_PROMPTS.get ⟨0, by decide⟩).text
      gratitude_prompt := some (SEED_PROMPTS.get ⟨0, by decide⟩).gratitude_prompt
      archived := false
      source := PromptSource.seed
      created_at := toString nowT }

/-- Embeds `promptUtils.getCurrentPrompt(installDate)` (src/unnamed/part_012
lines 157-183).  `store` is the outcome of the `db.settings.get('main')` /
`db.prompts.toArray()` reads inside the `try`: `.error` means some store
operation threw (caught, producing the fallback prompt), `.ok` carries the
values read.  The result is `Option Prompt` because `getTodayPrompt` can
return `undefined`, which `getCurrentPrompt` passes through (it is a return
value, not a thrown error, so the `catch` does not intercept it). -/
def getCurrentPrompt (store : Except Unit (Option Settings × List Prompt))
    (installT nowT offset : Int) : Option Prompt :=
  match store with
  | Except.error _ => some (getFallbackPrompt installT nowT)
  | Except.ok (settings, allPrompts) =>
    let todayString := getTodayString nowT offset
    let swapped : Option Prompt :=
      match settings with
      | some s =>
        if s.swapUsedDate = some todayString && s.lastPromptId.isSome then
          allPrompts.find? (fun p => some p.id == s.lastPromptId)
        else none
      | none => none
    match swapped with
    | some p => some p
    | none =>
      match getTodayPrompt installT nowT allPrompts with
      | Except.ok r => r
      | Except.error _ => some (getFallbackPrompt installT nowT)

/-- The prompt rows created by `promptUtils.initializeSeedPrompts`: ids
`seed-1` … `seed-10` over the fixed catalog. -/
def seededPrompts (createdAt : String) : List Prompt :=
  (List.range SEED_PROMPTS.length).zip SEED_PROMPTS |>.map (fun iq =>
    { id := "seed-" ++ toString (iq.1 + 1)
      text := iq.2.text
      gratitude_prompt := some iq.2.gratitude_prompt
      archived := false
      source := PromptSource.seed
      created_at := createdAt })

/-- The default `Settings` row created by `dbUtils.initializeSettings`. -/
def initialSettings (installAt : Int) : Settings :=
  { id := "main"
    pinSalt := none
    pinIterations := none
    pinHash := none
    lockTimeoutMinutes := 5
    dailyCueTime := none
    dailyCueEnabled := false
    notificationsEnabled := false
    telemetryOptIn := false
    telemetryAnonId := none
    telemetryActivationSent := none
    telemetryConsecutiveDays := none
    telemetryLastCompletionDate := none
    telemetryD7EventSent := none
    swapUsedDate := none
    lastPromptDate := none
    lastPromptId := none
    installAt := installAt
    currentTheme := Theme.system }

/-! ## Telemetry outbox (TelemetryService, src/lib/telemetry.ts)

The two milestone triggers are embedded as pure transformers on the
`Settings` row (the only persisted state they read and write), returning
the list of event types enqueued during the call in order.  Delivery
(`processQueue`) performs network I/O and never enqueues anything, so it is
irrelevant to counting enqueued events; dates use the same `Int` day
numbers (the source uses UTC `toISOString` date strings here, and
"yesterday" is again the preceding day number). -/

inductive TEventType where
  | activation | daily_completion | d7_completion
deriving DecidableEq, Repr

/-- The view `TelemetryService.getTelemetrySettings` builds from the
settings row (`|| false` / `|| 0` defaults on the optional fields). -/
structure TelemetryView where
  isOptedIn : Bool
  activationSent : Bool
  consecutiveDays : Int
  lastCompletionDate : Option Int
  d7EventSent : Bool
deriving DecidableEq, Repr

/-- `TelemetryService.getTelemetrySettings` on an existing settings row. -/
def getTelemetryView (s : Settings) : TelemetryView :=
  { isOptedIn := s.telemetryOptIn
    activationSent := s.telemetryActivationSent.getD false
    consecutiveDays := s.telemetryConsecutiveDays.getD 0
    lastCompletionDate := s.telemetryLastCompletionDate
    d7EventSent := s.telemetryD7EventSent.getD false }

/-- The settings write performed by `createEvent` when no anonymous id is
stored yet (`updateTelemetrySettings({ anonId })`). -/
def ensureAnonId (s : Settings) : Settings :=
  if s.telemetryAnonId.isSome then s
  else { s with telemetryAnonId := some "anon_generated" }

/-- Embeds `TelemetryService.sendD7CompletionEvent` (src/lib/telemetry.ts
lines 394-407): re-reads the settings, returns without enqueuing unless
opted in, the d7 flag is still clear and the consecutive-day count is at
least 7; otherwise enqueues one `d7_completion` event and sets the flag. -/
def sendD7CompletionEvent (s : Settings) : Settings × List TEventType :=
  let ts := getTelemetryView s
  if !ts.isOptedIn || ts.d7EventSent || ts.consecutiveDays < 7 then
    (s, [])
  else
    let s := ensureAnonId s
    ({ s with telemetryD7EventSent := some true }, [TEventType.d7_completion])

/-- Embeds `TelemetryService.sendDailyCompletionEvent` (src/lib/telemetry.ts
lines 352-391) for one daily-completion trigger on calendar day `today`.
Note the source sets the persisted `d7EventSent` to `false` whenever
`newConsecutiveDays >= 7`, and guards the follow-up `sendD7CompletionEvent`
call on the STALE pre-update `telemetrySettings.d7EventSent`. -/
def sendDailyCompletionEvent (s : Settings) (today : Int) : Settings × List TEventType :=
  let ts := getTelemetryView s
  if !ts.isOptedIn then (s, [])
  else if ts.lastCompletionDate == some today then (s, [])
  else
    let s := ensureAnonId s
    let yesterday := today - 1
    let newConsecutiveDays : Int :=
      if ts.lastCompletionDate == some yesterday then ts.consecutiveDays + 1 else 1
    let s := { s with
      telemetryLastCompletionDate := some today,
      telemetryConsecutiveDays := some newConsecutiveDays,
      telemetryD7EventSent := some (if 7 ≤ newConsecutiveDays then false else ts.d7EventSent) }
    if newConsecutiveDays == 7 && !ts.d7EventSent then
      let p := sendD7CompletionEvent s
      (p.1, TEventType.daily_completion :: p.2)
    else
      (s, [TEventType.daily_completion])

/-- Folds a sequence of daily-completion triggers (one per listed calendar
day) over the settings row, accumulating every event enqueued. -/
def runDailyTriggers (s : Settings) (days : List Int) : Settings × List TEventType :=
  days.foldl (fun acc d =>
    let p := sendDailyCompletionEvent acc.1 d
    (p.1, acc.2 ++ p.2)) (s, [])

/-! ## PIN hashing and verification (cryptoUtils, src/components/TodayCard.tsx)

Strings on this boundary are modelled as lists of their UTF-16 char codes
(`charCodeAt` values), so the fixed-time comparison can be embedded
exactly.  The two Web-Crypto/platform primitives are modelled, as the claim
prescribes: `pbkdf2Bits` is a stand-in for the PBKDF2-SHA-256 derivation —
any deterministic function injective in the PIN for a fixed salt and
iteration count — and `arrayBufferToBase64` is a stand-in for
`btoa` over the byte string: a deterministic textual encoding of byte
arrays with `base64ToArrayBuffer` as its left inverse (the exact RFC 4648
grouping is immaterial to the claims). -/

/-- Stored hash material (`PinHashData`). -/
structure PinHashData where
  salt : List Nat
  iterations : Nat
  hash : List Nat
deriving DecidableEq, Repr

/-- Modelled stand-in for `cryptoUtils.arrayBufferToBase64` (`btoa` of the
byte string): each byte becomes two base-64 digits. -/
def arrayBufferToBase64 (bytes : List Nat) : List Nat :=
  bytes.flatMap (fun b => [b / 64, b % 64])

/-- Modelled stand-in for `cryptoUtils.base64ToArrayBuffer` (`atob` back to
bytes): the left inverse of `arrayBufferToBase64`. -/
def base64ToArrayBuffer : List Nat → List Nat
  | d1 :: d2 :: rest => (d1 * 64 + d2) :: base64ToArrayBuffer rest
  | _ => []

/-- Modelled stand-in for the platform PBKDF2-SHA-256 derivation
(`crypto.subtle.deriveBits`): a deterministic key-derivation function of
(PIN, salt, iteration count) that is injective in the PIN for a fixed salt
and iteration count, which is the abstraction the claim prescribes.  The
`0` separates the salt from the PIN bytes. -/
def pbkdf2Bits (pin salt : List Nat) (iterations : Nat) : List Nat :=
  iterations :: (salt ++ 0 :: pin)

/-- Embeds `cryptoUtils.constantTimeEquals`: mismatched lengths
short-circuit to `false`; otherwise the XOR of every char-code pair is
OR-accumulated and the result compared with 0. -/
def constantTimeEquals (a b : List Nat) : Bool :=
  if a.length != b.length then
    false
  else
    ((a.zip b).foldl (fun result p => result ||| (p.1 ^^^ p.2)) 0) == 0

/-- Embeds `cryptoUtils.isValidPin`: the regex `^\d{4}$` over char codes
(digits are codes 48-57). -/
def isValidPin (pin : List Nat) : Bool :=
  pin.length == 4 && pin.all (fun c => 48 ≤ c && c ≤ 57)

/-- Embeds `cryptoUtils.hashPin`: derive with a fresh 16-byte random salt
(modelled as the parameter `salt`) and 100000 iterations, store the salt
and hash base64-encoded alongside the iteration count. -/
def hashPin (pin salt : List Nat) : PinHashData :=
  { salt := arrayBufferToBase64 salt
    iterations := 100000
    hash := arrayBufferToBase64 (pbkdf2Bits pin salt 100000) }

/-- Embeds `cryptoUtils.verifyPin`: decode the stored salt, re-derive with
the stored salt and iteration count, and compare the encodings in constant
time. -/
def verifyPin (pin : List Nat) (hashData : PinHashData) : Bool :=
  let saltBuffer := base64ToArrayBuffer hashData.salt
  let newHash := arrayBufferToBase64 (pbkdf2Bits pin saltBuffer hashData.iterations)
  constantTimeEquals newHash hashData.hash

/-! ## Export subsystem (dbUtils.exportDataWithProgress)

The produced JSON document is modelled as a tree; `JSON.stringify` omits
object properties whose value is `undefined`, so an optional field
contributes a key exactly when its value is present, and the sanitizer's
explicit `pinSalt: undefined` (etc.) removes those keys from the output. -/

inductive Json where
  | null : Json
  | str : String → Json
  | num : Int → Json
  | bool : Bool → Json
  | arr : List Json → Json
  | obj : List (String × Json) → Json
deriving Repr

mutual

/-- Every object key occurring anywhere in a JSON document. -/
def Json.allKeys : Json → List String
  | Json.obj fs => Json.allKeysFields fs
  | Json.arr xs => Json.allKeysList xs
  | _ => []

/-- Keys of every document in a list. -/
def Json.allKeysList : List Json → List String
  | [] => []
  | x :: xs => x.allKeys ++ Json.allKeysList xs

/-- Keys of a field list: each field name plus the keys of its value. -/
def Json.allKeysFields : List (String × Json) → List String
  | [] => []
  | f :: fs => f.1 :: (f.2.allKeys ++ Json.allKeysFields fs)

end

/-- An object property whose value may be `undefined`: present in the
stringified output only when the value exists. -/
def optField (k : String) (v : Option Json) : List (String × Json) :=
  match v with
  | some j => [(k, j)]
  | none => []

/-- The `settings` block of the export: the stored row spread with
`pinSalt: undefined, pinIterations: undefined, pinHash: undefined`, so the
three PIN properties are dropped by `JSON.stringify` while every other
stored property survives. -/
def serializeSanitizedSettings (s : Settings) : Json :=
  Json.obj (
    [("id", Json.str s.id)]
    ++ optField "pinSalt" none
    ++ optField "pinIterations" none
    ++ optField "pinHash" none
    ++ [("lockTimeoutMinutes", Json.num s.lockTimeoutMinutes)]
    ++ optField "dailyCueTime" (s.dailyCueTime.map Json.str)
    ++ [("dailyCueEnabled", Json.bool s.dailyCueEnabled),
        ("notificationsEnabled", Json.bool s.notificationsEnabled),
        ("telemetryOptIn", Json.bool s.telemetryOptIn)]
    ++ optField "telemetryAnonId" (s.telemetryAnonId.map Json.str)
    ++ optField "telemetryActivationSent" (s.telemetryActivationSent.map Json.bool)
    ++ optField "telemetryConsecutiveDays" (s.telemetryConsecutiveDays.map Json.num)
    ++ optField "telemetryLastCompletionDate" (s.telemetryLastCompletionDate.map Json.num)
    ++ optField "telemetryD7EventSent" (s.telemetryD7EventSent.map Json.bool)
    ++ optField "swapUsedDate" (s.swapUsedDate.map Json.num)
    ++ optField "lastPromptDate" (s.lastPromptDate.map Json.num)
    ++ optField "lastPromptId" (s.lastPromptId.map Json.str)
    ++ [("installAt", Json.num s.installAt),
        ("currentTheme", Json.str (match s.currentTheme with
          | Theme.light => "light"
          | Theme.dark => "dark"
          | Theme.system => "system"))])

/-- One element of the export's `entries[]` array. -/
def serializeExportEntry (e : Entry) : Json :=
  Json.obj [
    ("id", Json.str e.id),
    ("createdAt", Json.str e.created_at),
    ("content", Json.obj [
      ("setback", Json.str e.setback),
      ("protective_step", Json.str e.protective_step),
      ("gratitude", Json.str e.gratitude)]),
    ("metadata", Json.obj (
      [("dateLocal", Json.num e.dateLocal),
       ("prompt_id", Json.str e.prompt_id)]
      ++ optField "edited_at" (e.edited_at.map Json.str)
      ++ optField "duration_seconds" (e.duration_seconds.map Json.num)))]

/-- One element of the export's `prompts[]` array. -/
def serializeExportPrompt (p : Prompt) : Json :=
  Json.obj (
    [("id", Json.str p.id),
     ("text", Json.str p.text)]
    ++ optField "gratitude_prompt" (p.gratitude_prompt.map Json.str)
    ++ [("archived", Json.bool p.archived),
        ("source", Json.str (match p.source with
          | PromptSource.seed => "seed"
          | PromptSource.user => "user")),
        ("created_at", Json.str p.created_at)])

/-- The export's `streakSummary` block (the stored row as-is). -/
def serializeStreakSummary (s : StreakSummary) : Json :=
  Json.obj (
    [("id", Json.str s.id),
     ("start_date", Json.num s.start_date),
     ("current_streak", Json.num s.current_streak),
     ("longest_streak", Json.num s.longest_streak)]
    ++ optField "last_entry_date" (s.last_entry_date.map Json.num))

/-- Embeds the document built by `dbUtils.exportDataWithProgress`
(src/lib/database.ts lines 402-476).  `exportedAt` is the export timestamp
string.  A missing settings row exports as `settings: null`; a missing
streak row makes `streakSummary` `undefined`, dropped by `JSON.stringify`.
The `entries` array is ordered by `created_at` in the source; ordering
permutes the array and cannot change the set of keys, so the stored order
is used here. -/
def exportJson (db : DB) (exportedAt : String) : Json :=
  Json.obj (
    [("meta", Json.obj [
        ("appName", Json.str "Negative Visualization Journal"),
        ("appVersion", Json.str "0.1.0"),
        ("exportedAt", Json.str exportedAt),
        ("entryCount", Json.num db.entriesTable.length)]),
     ("entries", Json.arr (db.entriesTable.map serializeExportEntry)),
     ("settings", match db.settingsTable with
       | some s => serializeSanitizedSettings s
       | none => Json.null),
     ("prompts", Json.arr (db.promptsTable.map serializeExportPrompt))]
    ++ (match db.streakTable with
        | some s => [("streakSummary", serializeStreakSummary s)]
        | none => []))

/-! ## Daily-run scenario (for the streak claims)

The scenario of claim C1: starting from the freshly-initialized streak
summary, each day's first entry is saved and `updateStreak` is called
immediately after, with `entryDate` and the wall clock both on that
calendar day. -/

/-- A minimal entry row for calendar day `d` (the save that precedes the
day's `updateStreak` call; only `dateLocal` matters to the streak engine). -/
def mkEntry (d : Int) : Entry :=
  { id := "entry", dateLocal := d, prompt_id := "p", setback := "", protective_step := "",
    gratitude := "", created_at := "", edited_at := none, duration_seconds := none }

/-- One day of the scenario on calendar day `d`: save the day's first entry,
then call `updateStreak(d)` with the wall clock on day `d`. -/
def dayStep (db : DB) (d : Int) : DB :=
  (updateStreak (addEntry db (mkEntry d)) d d d).1

/-- The freshly-initialized state of claim C1: empty tables except the
streak summary produced by `initializeStreakSummary` at instant `t`
(current 0, longest 0, no last date). -/
def freshStreakDB (t : Int) : DB :=
  ⟨none, [], [], some ⟨"main", t, 0, 0, none⟩⟩

/-- `k` consecutive daily runs on days `start`, `start+1`, …, `start+k-1`,
from the freshly-initialized state. -/
def runFrom (start : Int) : Nat → DB
  | 0 => freshStreakDB start
  | k + 1 => dayStep (runFrom start k) (start + k)

/-! ## Claim C4: local date computation -/

/-- Claim C4 (evaluation at the failing input): `dbUtils.getTodayLocal` does
NOT return the local calendar date of the current instant.  At UTC instant
780 minutes (13:00 UTC of epoch day 0) in a UTC+10 timezone
(`getTimezoneOffset() = -600`), the local wall time is 23:00 of day 0, so
the local calendar date is day 0; the code shifts the instant by the offset
and then reads local-timezone accessors of the shifted instant, applying
the offset twice, and reports day 1. -/
theorem getTodayLocal_applies_offset_twice :
    getTodayLocal 780 (-600) = 1 ∧ localCalendarDay 780 (-600) = 0 := by
  decide

/-! ## Claim C5: d7_completion uniqueness -/

/-- Claim C5 (evaluation at the failing trace): over 8 consecutive
daily-completion triggers (days 1-8) while opted in, exactly one
`d7_completion` event is enqueued; but the day-8 trigger rewrites the
persisted `d7EventSent` flag back to `false` (`newConsecutiveDays >= 7 ?
false : ...`), so after a gap (days 9-10) a second run of 7 consecutive
days (11-17) enqueues a SECOND `d7_completion` event, contradicting the
claim that it never re-fires. -/
theorem d7_completion_refires_after_gap :
    ((runDailyTriggers { initialSettings 0 with telemetryOptIn := true }
        [1, 2, 3, 4, 5, 6, 7, 8]).2.count TEventType.d7_completion = 1) ∧
    ((runDailyTriggers { initialSettings 0 with telemetryOptIn := true }
        [1, 2, 3, 4, 5, 6, 7, 8, 11, 12, 13, 14, 15, 16, 17]).2.count
          TEventType.d7_completion = 2) := by
  decide

/-! ## Claim C7: totality of getCurrentPrompt -/

theorem pseudoRandom_nonneg {d : Int} (hd : 0 ≤ d) : 0 ≤ pseudoRandom d := by
  unfold pseudoRandom
  exact Int.tmod_nonneg _ (by nlinarith)

theorem jsIndex_isSome {α : Type} {xs : List α} {i : Int}
    (h0 : 0 ≤ i) (hl : i < (xs.length : Int)) : (jsIndex xs i).isSome = true := by
  unfold jsIndex
  rw [if_pos h0]
  have ht : i.toNat < xs.length := by omega
  rw [List.get?_eq_get ht]
  rfl

theorem getTodayPrompt_ok_isSome {installT nowT : Int} {prompts : List Prompt}
    (h : installT ≤ nowT) {r : Option Prompt}
    (hr : getTodayPrompt installT nowT prompts = Except.ok r) : r.isSome = true := by
  unfold getTodayPrompt at hr
  by_cases hlen :
      (prompts.filter (fun p => p.source == PromptSource.seed && !p.archived)).length = 0
  · rw [if_pos hlen] at hr
    exact absurd hr (by simp)
  · rw [if_neg hlen] at hr
    have hd : 0 ≤ daysSinceInstall installT nowT :=
      Int.fdiv_nonneg (by omega) (by norm_num)
    have hp := pseudoRandom_nonneg hd
    have hpos :
        (0 : Int) <
          ((prompts.filter (fun p => p.source == PromptSource.seed && !p.archived)).length : Int) := by
      omega
    have h0 := Int.tmod_nonneg
      (((prompts.filter (fun p => p.source == PromptSource.seed && !p.archived)).length : Int)) hp
    have hl := Int.tmod_lt_of_pos (pseudoRandom (daysSinceInstall installT nowT)) hpos
    have := jsIndex_isSome h0 hl
    rw [← (Except.ok.injEq _ _).mp hr]
    exact this

/-- Claim C7 (counterexample to the claim as stated): with a perfectly
readable store holding the seeded catalog and no swap, an install date
1000 days in the future makes `daysSinceInstall` negative, the JS `%`
yields a negative index, `seedPrompts[index]` is `undefined`, and
`getCurrentPrompt` returns that `undefined` — no prompt — without any
exception being thrown for the fallback to catch. -/
theorem getCurrentPrompt_undefined_for_far_future_install :
    getCurrentPrompt
      (Except.ok (some (initialSettings 0), seededPrompts "2024-01-01T00:00:00.000Z"))
      1440000 0 0 = none := by
  decide

/-- Claim C7 (amended): `promptUtils.getCurrentPrompt` returns some prompt
for every storage outcome (store readable with any settings row and any
prompt catalog, including empty or fully archived, or any store operation
throwing) provided the install date is not in the future of the current
time; the unamended claim fails only for install dates far enough in the
future (counterexample above). -/
theorem getCurrentPrompt_total_for_nonfuture_install
    (store : Except Unit (Option Settings × List Prompt)) (installT nowT offset : Int)
    (h : installT ≤ nowT) :
    (getCurrentPrompt store installT nowT offset).isSome = true := by
  unfold getCurrentPrompt
  cases store with
  | error e => rfl
  | ok v =>
    obtain ⟨settings, allPrompts⟩ := v
    dsimp only
    split
    · rfl
    · split
      · next r hr => exact getTodayPrompt_ok_isSome h hr
      · rfl

/-- Witness for the amended C7 theorem: a readable seeded store, install at
instant 0, queried one day later, yields some prompt. -/
theorem getCurrentPrompt_total_for_nonfuture_install_witness :
    (getCurrentPrompt (Except.ok (some (initialSettings 0), seededPrompts "t"))
      0 1440 0).isSome = true :=
  getCurrentPrompt_total_for_nonfuture_install _ 0 1440 0 (by decide)

/-! ## Claim C10: reset backup target field -/

/-- Claim C10 (counterexample to "an unused settings field"): the backup is
written into `settings.lastPromptId`, and `promptUtils.getCurrentPrompt`
reads that very field to resolve a swapped prompt — two stores identical
except for `lastPromptId` yield different current prompts, so the field is
read and depended on by another core operation. -/
theorem getCurrentPrompt_depends_on_lastPromptId :
    getCurrentPrompt
      (Except.ok (some { initialSettings 0 with
          swapUsedDate := some 0, lastPromptId := some "seed-2" },
        seededPrompts "t")) 0 0 0 ≠
    getCurrentPrompt
      (Except.ok (some { initialSettings 0 with
          swapUsedDate := some 0, lastPromptId := some "seed-3" },
        seededPrompts "t")) 0 0 0 := by
  decide

/-- Claim C10 (amended): `resetStreakData` zeroes both counters and resets
`start_date`, and writes the serialized backup of the prior summary into
the settings field `lastPromptId` (which IS read by the prompt scheduler's
swap resolution), leaving every other settings field and the other tables
untouched. -/
theorem resetStreakData_zeroes_and_backs_up
    (db : DB) (st : Settings) (cur : StreakSummary) (now : Int)
    (hset : db.settingsTable = some st) (hstreak : db.streakTable = some cur) :
    (resetStreakData db now).2 = true ∧
    (resetStreakData db now).1.streakTable =
      some { id := "main", start_date := now, current_streak := 0, longest_streak := 0,
             last_entry_date := none } ∧
    (resetStreakData db now).1.settingsTable =
      some { st with lastPromptId := some (backupString now cur) } ∧
    (resetStreakData db now).1.promptsTable = db.promptsTable ∧
    (resetStreakData db now).1.entriesTable = db.entriesTable := by
  unfold resetStreakData
  rw [hset, hstreak]
  exact ⟨rfl, rfl, rfl, rfl, rfl⟩

/-- Witness for the amended C10 theorem at a concrete state. -/
theorem resetStreakData_zeroes_and_backs_up_witness :
    (resetStreakData ⟨some (initialSettings 0), [], [], some ⟨"main", 0, 2, 3, some 5⟩⟩
        9).1.settingsTable =
      some { initialSettings 0 with
              lastPromptId := some (backupString 9 ⟨"main", 0, 2, 3, some 5⟩) } := by
  exact (resetStreakData_zeroes_and_backs_up _ (initialSettings 0) _ 9 rfl rfl).2.2.1

/-! ## Claim C6: same-day swap rejection -/

/-- Claim C6: whenever `settings.swapUsedDate` already equals today's local
calendar date, `promptUtils.swapTodayPrompt` fails (`success = false`, with
the once-per-day error message) and leaves the whole persisted state —
every settings field included — exactly as it was. -/
theorem swapTodayPrompt_rejected_when_used_today (db : DB) (st : Settings)
    (installT nowT offset : Int) (rand : Nat)
    (hst : db.settingsTable = some st)
    (hused : st.swapUsedDate = some (localCalendarDay nowT offset)) :
    (swapTodayPrompt db installT nowT offset rand).1 = db ∧
    (swapTodayPrompt db installT nowT offset rand).2.success = false ∧
    (swapTodayPrompt db installT nowT offset rand).2.error =
      some "You can only swap once per day. Try again tomorrow." := by
  have hcan : canSwapToday st.swapUsedDate nowT offset = false := by
    simp [canSwapToday, getTodayString, hused]
  unfold swapTodayPrompt
  rw [hst]
  simp [hcan]

/-- Witness for the C6 theorem at a concrete state: a store whose
`swapUsedDate` is day 0, queried at an instant whose local day is 0. -/
theorem swapTodayPrompt_rejected_when_used_today_witness :
    (swapTodayPrompt ⟨some { initialSettings 0 with swapUsedDate := some 0 },
        seededPrompts "t", [], none⟩ 0 0 0 0).1 =
      ⟨some { initialSettings 0 with swapUsedDate := some 0 }, seededPrompts "t", [], none⟩ ∧
    (swapTodayPrompt ⟨some { initialSettings 0 with swapUsedDate := some 0 },
        seededPrompts "t", [], none⟩ 0 0 0 0).2.success = false := by
  have h := swapTodayPrompt_rejected_when_used_today
    ⟨some { initialSettings 0 with swapUsedDate := some 0 }, seededPrompts "t", [], none⟩
    { initialSettings 0 with swapUsedDate := some 0 } 0 0 0 0 rfl (by decide)
  exact ⟨h.1, h.2.1⟩

/-! ## Claim C2: second entry of the day leaves the streak untouched -/

/-- Claim C2: if an entry for `entryDate` already existed before the
current save, then `dbUtils.updateStreak(entryDate)` — invoked right after
that save — reports `isFirstToday = false`, leaves the whole database
exactly as it was after the save (so `current_streak`, `longest_streak`
and `last_entry_date` in the persisted summary are untouched), and keeps
the summary row it started with. -/
theorem updateStreak_second_entry_noop (db : DB) (s : StreakSummary) (e : Entry)
    (entryDate today now : Int)
    (hs : db.streakTable = some s)
    (hdate : e.dateLocal = entryDate)
    (hexisting : 1 ≤ countEntriesForDate db entryDate) :
    (updateStreak (addEntry db e) entryDate today now).1 = addEntry db e ∧
    (updateStreak (addEntry db e) entryDate today now).2.isFirstToday = false ∧
    (updateStreak (addEntry db e) entryDate today now).1.streakTable = some s := by
  have hcount : countEntriesForDate (addEntry db e) entryDate =
      countEntriesForDate db entryDate + 1 := by
    unfold countEntriesForDate addEntry
    simp [List.countP_cons, hdate]
  have hinit : initializeStreakSummary (addEntry db e) now = (addEntry db e, s) := by
    unfold initializeStreakSummary addEntry
    simp [hs]
  have hne : (countEntriesForDate (addEntry db e) entryDate == 1) = false := by
    rw [hcount]
    simp only [beq_eq_false_iff_ne, ne_eq]
    omega
  unfold updateStreak
  rw [hinit]
  simp only [hne, Bool.not_false, if_true, true_and]
  unfold addEntry
  simpa using hs

/-- Witness for the C2 theorem: a database already holding one entry for
day 3 with summary (2, 2, last = 3); saving a second day-3 entry and
calling `updateStreak` changes nothing. -/
theorem updateStreak_second_entry_noop_witness :
    (updateStreak (addEntry ⟨none, [], [⟨"e1", 3, "p", "a", "b", "c", "t", none, none⟩],
        some ⟨"main", 0, 2, 2, some 3⟩⟩ ⟨"e2", 3, "p", "a", "b", "c", "t", none, none⟩)
        3 3 3).2.isFirstToday = false := by
  exact (updateStreak_second_entry_noop
    ⟨none, [], [⟨"e1", 3, "p", "a", "b", "c", "t", none, none⟩], some ⟨"main", 0, 2, 2, some 3⟩⟩
    ⟨"main", 0, 2, 2, some 3⟩ ⟨"e2", 3, "p", "a", "b", "c", "t", none, none⟩
    3 3 3 rfl rfl (by decide)).2.1

/-! ## Claim C8: PIN hash round-trip and mismatch -/

theorem base64_roundtrip (bytes : List Nat) :
    base64ToArrayBuffer (arrayBufferToBase64 bytes) = bytes := by
  induction bytes with
  | nil => rfl
  | cons b rest ih =>
    have hb : b / 64 * 64 + b % 64 = b := by omega
    have hcons : arrayBufferToBase64 (b :: rest) =
        b / 64 :: b % 64 :: arrayBufferToBase64 rest := by
      simp [arrayBufferToBase64]
    rw [hcons]
    simp [base64ToArrayBuffer, hb, ih]

theorem arrayBufferToBase64_inj {a b : List Nat}
    (h : arrayBufferToBase64 a = arrayBufferToBase64 b) : a = b := by
  have h2 := congrArg base64ToArrayBuffer h
  rwa [base64_roundtrip, base64_roundtrip] at h2

theorem nat_or_eq_zero_iff (x y : Nat) : x ||| y = 0 ↔ x = 0 ∧ y = 0 := by
  constructor
  · intro h
    constructor
    · apply Nat.eq_of_testBit_eq
      intro i
      have hbit := congrArg (fun n => Nat.testBit n i) h
      simp [Nat.testBit_or] at hbit
      simp [hbit.1]
    · apply Nat.eq_of_testBit_eq
      intro i
      have hbit := congrArg (fun n => Nat.testBit n i) h
      simp [Nat.testBit_or] at hbit
      simp [hbit.2]
  · rintro ⟨rfl, rfl⟩
    rfl

theorem foldl_or_xor_eq_zero (l : List (Nat × Nat)) (acc : Nat) :
    (l.foldl (fun r p => r ||| (p.1 ^^^ p.2)) acc = 0) ↔
      (acc = 0 ∧ ∀ p ∈ l, p.1 = p.2) := by
  induction l generalizing acc with
  | nil => simp
  | cons q l ih =>
    rw [List.foldl_cons, ih]
    rw [nat_or_eq_zero_iff, Nat.xor_eq_zero]
    constructor
    · rintro ⟨⟨h0, hq⟩, hall⟩
      exact ⟨h0, by simpa [hq] using hall⟩
    · rintro ⟨h0, hall⟩
      refine ⟨⟨h0, hall q (by simp)⟩, fun p hp => hall p (by simp [hp])⟩

theorem zip_forall_eq (a : List Nat) : ∀ (b : List Nat), a.length = b.length →
    ((∀ p ∈ a.zip b, p.1 = p.2) ↔ a = b) := by
  induction a with
  | nil =>
    intro b hlen
    cases b with
    | nil => simp
    | cons y b => simp at hlen
  | cons x a ih =>
    intro b hlen
    cases b with
    | nil => simp at hlen
    | cons y b =>
      have hlen' : a.length = b.length := by simpa using hlen
      rw [List.zip_cons_cons]
      constructor
      · intro hall
        have hx : x = y := hall (x, y) (by simp)
        have : a = b := (ih b hlen').mp (fun p hp => hall p (by simp [hp]))
        rw [hx, this]
      · intro heq
        have hx : x = y := by injection heq
        have ht : a = b := by injection heq
        intro p hp
        rcases List.mem_cons.mp hp with h | h
        · rw [h]; exact hx
        · exact ((ih b hlen').mpr ht) p h

theorem constantTimeEquals_eq_true_iff (a b : List Nat) :
    constantTimeEquals a b = true ↔ a = b := by
  unfold constantTimeEquals
  by_cases hlen : a.length = b.length
  · have hc : (a.length != b.length) = false := by simp [hlen]
    rw [hc, if_neg (by simp)]
    rw [beq_iff_eq, foldl_or_xor_eq_zero, zip_forall_eq a b hlen]
    simp
  · have hc : (a.length != b.length) = true := by simp [hlen]
    rw [hc, if_pos rfl]
    constructor
    · intro h
      exact absurd h (by simp)
    · intro h
      exact absurd (congrArg List.length h) hlen

theorem pbkdf2Bits_inj_in_pin {pin1 pin2 salt : List Nat} {iter : Nat}
    (h : pbkdf2Bits pin1 salt iter = pbkdf2Bits pin2 salt iter) : pin1 = pin2 := by
  unfold pbkdf2Bits at h
  simp only [List.cons.injEq, List.append_cancel_left_eq, true_and] at h
  exact h

/-- Claim C8: for every 4-digit PIN and every salt, `verifyPin` accepts the
`hashPin` result for that PIN, and rejects it for every different 4-digit
PIN (with PBKDF2-SHA-256 modelled as a deterministic derivation injective
in the PIN for fixed salt and iteration count). -/
theorem verifyPin_roundtrip_and_mismatch (pin salt : List Nat)
    (hpin : isValidPin pin = true) :
    verifyPin pin (hashPin pin salt) = true ∧
    ∀ pin2, isValidPin pin2 = true → pin2 ≠ pin →
      verifyPin pin2 (hashPin pin salt) = false := by
  constructor
  · unfold verifyPin hashPin
    dsimp only
    rw [base64_roundtrip]
    exact (constantTimeEquals_eq_true_iff _ _).mpr rfl
  · intro pin2 _hpin2 hne
    unfold verifyPin hashPin
    dsimp only
    rw [base64_roundtrip]
    have hneq : ¬(constantTimeEquals
        (arrayBufferToBase64 (pbkdf2Bits pin2 salt 100000))
        (arrayBufferToBase64 (pbkdf2Bits pin salt 100000)) = true) := by
      rw [constantTimeEquals_eq_true_iff]
      intro heq
      exact hne (pbkdf2Bits_inj_in_pin (arrayBufferToBase64_inj heq))
    exact Bool.eq_false_iff.mpr hneq

/-- Witness for the C8 theorem: PIN "1234" (char codes 49-52) verifies
against its own hash with a concrete 16-byte salt, and PIN "1235" is
rejected. -/
theorem verifyPin_roundtrip_and_mismatch_witness :
    verifyPin [49, 50, 51, 52]
      (hashPin [49, 50, 51, 52] [1, 2, 3, 4, 5, 6, 7, 8, 9, 10, 11, 12, 13, 14, 15, 16]) =
        true ∧
    verifyPin [49, 50, 51, 53]
      (hashPin [49, 50, 51, 52] [1, 2, 3, 4, 5, 6, 7, 8, 9, 10, 11, 12, 13, 14, 15, 16]) =
        false := by
  have h := verifyPin_roundtrip_and_mismatch [49, 50, 51, 52]
    [1, 2, 3, 4, 5, 6, 7, 8, 9, 10, 11, 12, 13, 14, 15, 16] (by decide)
  exact ⟨h.1, h.2 [49, 50, 51, 53] (by decide) (by decide)⟩

/-! ## Claim C1: consecutive days and gap reset -/

theorem countEntriesForDate_addEntry (db : DB) (e : Entry) (d : Int)
    (hd : e.dateLocal = d) :
    countEntriesForDate (addEntry db e) d = countEntriesForDate db d + 1 := by
  unfold countEntriesForDate addEntry
  simp [List.countP_cons, hd]

theorem countEntriesForDate_eq_zero (db : DB) (d : Int)
    (h : ∀ e ∈ db.entriesTable, e.dateLocal ≠ d) : countEntriesForDate db d = 0 := by
  unfold countEntriesForDate
  rw [List.countP_eq_zero]
  intro e he
  simpa using h e he

theorem initializeStreakSummary_of_some (db : DB) (s : StreakSummary) (now : Int)
    (hs : db.streakTable = some s) : initializeStreakSummary db now = (db, s) := by
  unfold initializeStreakSummary
  rw [hs]

/-- `updateStreak` on the first entry for its date, first-ever case
(`last_entry_date` absent): both counters become 1 and `start_date` is
reset. -/
theorem updateStreak_first_ever (db : DB) (s : StreakSummary) (e : Entry)
    (entryDate today now : Int)
    (hs : db.streakTable = some s)
    (hlast : s.last_entry_date = none)
    (hdate : e.dateLocal = entryDate)
    (hcount : countEntriesForDate db entryDate = 0) :
    (updateStreak (addEntry db e) entryDate today now).1 =
      { addEntry db e with streakTable := some { s with
          current_streak := 1,
          longest_streak := 1,
          start_date := now,
          last_entry_date := some entryDate } } := by
  have hs' : (addEntry db e).streakTable = some s := hs
  have hcount' : countEntriesForDate (addEntry db e) entryDate = 1 := by
    rw [countEntriesForDate_addEntry db e entryDate hdate, hcount]
  unfold updateStreak
  rw [initializeStreakSummary_of_some _ s now hs']
  simp [hcount', hlast]

/-- `updateStreak` on the first entry for its date, consecutive case
(`last_entry_date` is the wall clock's previous calendar day): the current
streak increments and the longest streak takes the max. -/
theorem updateStreak_consecutive (db : DB) (s : StreakSummary) (e : Entry)
    (entryDate today now : Int)
    (hs : db.streakTable = some s)
    (hlast : s.last_entry_date = some (today - 1))
    (hdate : e.dateLocal = entryDate)
    (hcount : countEntriesForDate db entryDate = 0) :
    (updateStreak (addEntry db e) entryDate today now).1 =
      { addEntry db e with streakTable := some { s with
          current_streak := s.current_streak + 1,
          longest_streak := max s.longest_streak (s.current_streak + 1),
          last_entry_date := some entryDate } } := by
  have hs' : (addEntry db e).streakTable = some s := hs
  have hcount' : countEntriesForDate (addEntry db e) entryDate = 1 := by
    rw [countEntriesForDate_addEntry db e entryDate hdate, hcount]
  unfold updateStreak
  rw [initializeStreakSummary_of_some _ s now hs']
  simp [hcount', hlast]

/-- `updateStreak` on the first entry for its date, gap case
(`last_entry_date` present, not the previous day and not the entry date):
the current streak resets to 1, the longest streak is untouched. -/
theorem updateStreak_gap (db : DB) (s : StreakSummary) (e : Entry)
    (entryDate today now d0 : Int)
    (hs : db.streakTable = some s)
    (hlast : s.last_entry_date = some d0)
    (hd1 : d0 ≠ today - 1)
    (hd2 : d0 ≠ entryDate)
    (hdate : e.dateLocal = entryDate)
    (hcount : countEntriesForDate db entryDate = 0) :
    (updateStreak (addEntry db e) entryDate today now).1 =
      { addEntry db e with streakTable := some { s with
          current_streak := 1,
          start_date := now,
          last_entry_date := some entryDate } } := by
  have hs' : (addEntry db e).streakTable = some s := hs
  have hcount' : countEntriesForDate (addEntry db e) entryDate = 1 := by
    rw [countEntriesForDate_addEntry db e entryDate hdate, hcount]
  unfold updateStreak
  rw [initializeStreakSummary_of_some _ s now hs']
  simp [hcount', hlast, hd1, hd2]

/-- Internal invariant of the C1 scenario: after `k ≥ 1` consecutive days
the summary is exactly (k, k, last = start+k-1) with `start_date` set on
day one, and every saved entry is dated before day `start + k`. -/
theorem runFrom_inv (start : Int) (k : Nat) (hk : 1 ≤ k) :
    (runFrom start k).streakTable =
      some { id := "main", start_date := start, current_streak := (k : Int),
             longest_streak := (k : Int),
             last_entry_date := some (start + (k : Int) - 1) } ∧
    ∀ e ∈ (runFrom start k).entriesTable, e.dateLocal < start + (k : Int) := by
  induction k with
  | zero => omega
  | succ k ih =>
    by_cases hk0 : k = 0
    · subst hk0
      have hzero : countEntriesForDate (freshStreakDB start) (start + ((0 : Nat) : Int)) = 0 :=
        countEntriesForDate_eq_zero _ _ (by intro e he; simp [freshStreakDB] at he)
      have h1 := updateStreak_first_ever (freshStreakDB start)
        ⟨"main", start, 0, 0, none⟩ (mkEntry (start + ((0 : Nat) : Int)))
        (start + ((0 : Nat) : Int)) (start + ((0 : Nat) : Int)) (start + ((0 : Nat) : Int))
        rfl rfl rfl hzero
      have hrun : runFrom start 1 = dayStep (freshStreakDB start) (start + ((0 : Nat) : Int)) :=
        rfl
      constructor
      · rw [hrun]
        unfold dayStep
        rw [h1]
        simp only [Option.some.injEq, StreakSummary.mk.injEq, eq_self_iff_true, true_and,
          addEntry, freshStreakDB]
        omega
      · intro e he
        rw [hrun] at he
        unfold dayStep at he
        rw [h1] at he
        simp only [addEntry, freshStreakDB] at he
        simp at he
        rw [he]
        simp only [mkEntry]
        omega
    · have hk1 : 1 ≤ k := by omega
      obtain ⟨hstreak, hentries⟩ := ih hk1
      have hzero : countEntriesForDate (runFrom start k) (start + (k : Int)) = 0 :=
        countEntriesForDate_eq_zero _ _ (by
          intro e he
          have := hentries e he
          omega)
      have h1 := updateStreak_consecutive (runFrom start k)
        ⟨"main", start, (k : Int), (k : Int), some (start + (k : Int) - 1)⟩
        (mkEntry (start + (k : Int)))
        (start + (k : Int)) (start + (k : Int)) (start + (k : Int))
        hstreak rfl rfl hzero
      have hrun : runFrom start (k + 1) = dayStep (runFrom start k) (start + (k : Int)) := rfl
      constructor
      · rw [hrun]
        unfold dayStep
        rw [h1]
        simp only [Option.some.injEq, StreakSummary.mk.injEq, eq_self_iff_true, true_and,
          addEntry]
        refine ⟨by omega, ?_, by omega⟩
        rw [sup_eq_max, max_eq_right (by omega : ((k : Int)) ≤ (k : Int) + 1)]
        omega
      · intro e he
        rw [hrun] at he
        unfold dayStep at he
        rw [h1] at he
        simp only [addEntry] at he
        simp at he
        rcases he with h | h
        · rw [h]
          simp only [mkEntry]
          omega
        · have := hentries e h
          omega

/-- Claim C1: from the freshly-initialized summary, running the daily
save-then-`updateStreak` protocol on `N ≥ 1` consecutive calendar days
yields `current_streak = N` and `longest_streak = N`; a next counted entry
after a gap of `g ≥ 2` calendar days resets `current_streak` to 1 while
`longest_streak` keeps its prior maximum `N`. -/
theorem streak_consecutive_days_then_gap (start : Int) (N : Nat) (hN : 1 ≤ N)
    (g : Nat) (hg : 2 ≤ g) :
    ((runFrom start N).streakTable =
      some { id := "main", start_date := start, current_streak := (N : Int),
             longest_streak := (N : Int),
             last_entry_date := some (start + (N : Int) - 1) }) ∧
    ((dayStep (runFrom start N) (start + (N : Int) - 1 + (g : Int))).streakTable =
      some { id := "main", start_date := start + (N : Int) - 1 + (g : Int),
             current_streak := 1, longest_streak := (N : Int),
             last_entry_date := some (start + (N : Int) - 1 + (g : Int)) }) := by
  obtain ⟨hstreak, hentries⟩ := runFrom_inv start N hN
  refine ⟨hstreak, ?_⟩
  have hgap := updateStreak_gap (runFrom start N)
    ⟨"main", start, (N : Int), (N : Int), some (start + (N : Int) - 1)⟩
    (mkEntry (start + (N : Int) - 1 + (g : Int)))
    (start + (N : Int) - 1 + (g : Int)) (start + (N : Int) - 1 + (g : Int))
    (start + (N : Int) - 1 + (g : Int)) (start + (N : Int) - 1)
    hstreak rfl (by intro h; omega) (by intro h; omega) rfl
    (countEntriesForDate_eq_zero _ _ (by
      intro e he
      have := hentries e he
      omega))
  unfold dayStep
  rw [hgap]

/-- Witness for the C1 theorem: days 0, 1, 2 give (3, 3); the next entry on
day 4 (a 2-day gap) gives (1, 3). -/
theorem streak_consecutive_days_then_gap_witness :
    ((runFrom 0 3).streakTable =
      some { id := "main", start_date := 0, current_streak := 3,
             longest_streak := 3, last_entry_date := some 2 }) ∧
    ((dayStep (runFrom 0 3) 4).streakTable =
      some { id := "main", start_date := 4, current_streak := 1,
             longest_streak := 3, last_entry_date := some 4 }) := by
  have h := streak_consecutive_days_then_gap 0 3 (by decide) 2 (by decide)
  norm_num at h
  exact h

/-! ## Claim C3: streak-summary invariant under the core operations -/

theorem initializeStreakSummary_of_none (db : DB) (now : Int)
    (hs : db.streakTable = none) :
    initializeStreakSummary db now =
      ({ db with streakTable := some ⟨"main", now, 0, 0, none⟩ },
        (⟨"main", now, 0, 0, none⟩ : StreakSummary)) := by
  unfold initializeStreakSummary
  rw [hs]

theorem initStreak_preserves_strongInv (db : DB) (now : Int)
    (hinv : ∀ s, db.streakTable = some s → streakStrongInv s) :
    ∀ s, (initializeStreakSummary db now).1.streakTable = some s → streakStrongInv s := by
  intro s hs
  cases hst : db.streakTable with
  | some ex =>
    rw [initializeStreakSummary_of_some db ex now hst] at hs
    exact hinv s hs
  | none =>
    rw [initializeStreakSummary_of_none db now hst] at hs
    simp only at hs
    injection hs with hs
    subst hs
    exact ⟨by simp, by simp, by simp⟩

theorem updateStreak_preserves_strongInv (db : DB) (entryDate today now : Int)
    (hinv : ∀ s, db.streakTable = some s → streakStrongInv s) :
    ∀ s, (updateStreak db entryDate today now).1.streakTable = some s →
      streakStrongInv s := by
  intro s hs
  unfold updateStreak at hs
  cases hst : db.streakTable with
  | none =>
    rw [initializeStreakSummary_of_none db now hst] at hs
    dsimp only at hs
    split at hs
    · injection hs with hs
      subst hs
      exact ⟨by simp, by simp, by simp⟩
    · simp only [reduceCtorEq, reduceIte, if_true, if_false] at hs
      injection hs with hs
      subst hs
      exact ⟨by simp, by simp, by simp⟩
  | some ex =>
    have hex := hinv ex hst
    rw [initializeStreakSummary_of_some db ex now hst] at hs
    dsimp only at hs
    split at hs
    · rw [hst] at hs
      injection hs with hs
      subst hs
      exact hex
    · split at hs
      · next hnone =>
        injection hs with hs
        subst hs
        exact ⟨by simp, by simp, by simp⟩
      · next hnone =>
        split at hs
        · next hyest =>
          injection hs with hs
          subst hs
          obtain ⟨h1, h2, h3⟩ := hex
          refine ⟨by simp; omega, ?_, by simp; omega⟩
          simp only
          exact le_max_right _ _
        · next hyest =>
          split at hs
          · next hgap =>
            injection hs with hs
            subst hs
            obtain ⟨h1, h2, h3⟩ := hex
            have hcur := h3 hnone
            exact ⟨by simp, by simpa using le_trans hcur h2, by simp⟩
          · next hgap =>
            injection hs with hs
            subst hs
            obtain ⟨h1, h2, h3⟩ := hex
            have hcur := h3 hnone
            exact ⟨by simpa using h1, by simpa using h2, by simpa using hcur⟩

theorem validate_preserves_strongInv (db : DB) (now : Int)
    (hinv : ∀ s, db.streakTable = some s → streakStrongInv s) :
    ∀ s, (validateAndRecoverStreakData db now).1.streakTable = some s →
      streakStrongInv s := by
  intro s hs
  unfold validateAndRecoverStreakData at hs
  cases hst : db.streakTable with
  | none =>
    rw [hst] at hs
    dsimp only at hs
    exact initStreak_preserves_strongInv db now hinv s hs
  | some ex =>
    have hex := hinv ex hst
    rw [hst] at hs
    dsimp only at hs
    split at hs
    · next hcorrupt =>
      obtain ⟨h1, h2, _⟩ := hex
      simp only [Bool.or_eq_true, decide_eq_true_eq] at hcorrupt
      omega
    · rw [hst] at hs
      injection hs with hs
      subst hs
      exact hex

theorem reset_preserves_strongInv (db : DB) (now : Int) :
    ∀ s, (resetStreakData db now).1.streakTable = some s → streakStrongInv s := by
  intro s hs
  unfold resetStreakData at hs
  dsimp only at hs
  injection hs with hs
  subst hs
  exact ⟨by simp, by simp, by simp⟩

theorem reachDB_strongInv (db : DB) (h : ReachDB db) :
    ∀ s, db.streakTable = some s → streakStrongInv s := by
  induction h with
  | base => intro s hs; exact absurd hs (by simp [emptyDB])
  | save db e _ ih => exact ih
  | settingsWrite db st _ ih => exact ih
  | promptsWrite db ps _ ih => exact ih
  | initStreak db now _ ih => exact initStreak_preserves_strongInv db now ih
  | update db entryDate today now _ ih =>
    exact updateStreak_preserves_strongInv db entryDate today now ih
  | validate db now _ ih => exact validate_preserves_strongInv db now ih
  | reset db now _ ih => exact reset_preserves_strongInv db now

/-- Claim C3: every streak-summary state reachable through the core streak
operations (`initializeStreakSummary`, `updateStreak`,
`validateAndRecoverStreakData`, `resetStreakData`, together with the other
components' entry/settings/prompts writes) satisfies
`0 ≤ current_streak ≤ longest_streak`. -/
theorem streak_ops_preserve_invariant (db : DB) (h : ReachDB db)
    (s : StreakSummary) (hs : db.streakTable = some s) :
    0 ≤ s.current_streak ∧ s.current_streak ≤ s.longest_streak := by
  obtain ⟨h1, h2, _⟩ := reachDB_strongInv db h s hs
  exact ⟨h1, h2⟩

/-- Witness for the C3 theorem: the state reached by saving a day-0 entry
into the empty store and running `updateStreak` has summary (1, 1) and
satisfies the invariant. -/
theorem streak_ops_preserve_invariant_witness :
    (0 : Int) ≤ (1 : Int) ∧ (1 : Int) ≤ (1 : Int) := by
  exact streak_ops_preserve_invariant
    (updateStreak (addEntry emptyDB (mkEntry 0)) 0 0 0).1
    (ReachDB.update _ 0 0 0 (ReachDB.save _ _ ReachDB.base))
    ⟨"main", 0, 1, 1, some 0⟩ (by decide)

/-! ## Claim C9: export never contains PIN material -/

theorem allKeysFields_nil : Json.allKeysFields [] = [] := rfl

theorem allKeysFields_cons (f : String × Json) (fs : List (String × Json)) :
    Json.allKeysFields (f :: fs) = f.1 :: (f.2.allKeys ++ Json.allKeysFields fs) := rfl

theorem allKeysFields_append (a b : List (String × Json)) :
    Json.allKeysFields (a ++ b) = Json.allKeysFields a ++ Json.allKeysFields b := by
  induction a with
  | nil => rfl
  | cons f fs ih => simp [allKeysFields_cons, ih]

theorem allKeys_obj (fs : List (String × Json)) :
    (Json.obj fs).allKeys = Json.allKeysFields fs := rfl

theorem allKeys_arr (xs : List Json) :
    (Json.arr xs).allKeys = Json.allKeysList xs := rfl

theorem allKeys_str (s : String) : (Json.str s).allKeys = [] := rfl

theorem allKeys_num (n : Int) : (Json.num n).allKeys = [] := rfl

theorem allKeys_bool (b : Bool) : (Json.bool b).allKeys = [] := rfl

theorem allKeys_null : Json.null.allKeys = [] := rfl

theorem allKeysFields_optField_str (kk : String) (x : Option String) :
    Json.allKeysFields (optField kk (x.map Json.str)) =
      if x.isSome then [kk] else [] := by
  cases x <;> simp [optField, allKeysFields_cons, allKeysFields_nil, allKeys_str]

theorem allKeysFields_optField_num (kk : String) (x : Option Int) :
    Json.allKeysFields (optField kk (x.map Json.num)) =
      if x.isSome then [kk] else [] := by
  cases x <;> simp [optField, allKeysFields_cons, allKeysFields_nil, allKeys_num]

theorem allKeysFields_optField_bool (kk : String) (x : Option Bool) :
    Json.allKeysFields (optField kk (x.map Json.bool)) =
      if x.isSome then [kk] else [] := by
  cases x <;> simp [optField, allKeysFields_cons, allKeysFields_nil, allKeys_bool]

theorem allKeysFields_optField_none (kk : String) :
    Json.allKeysFields (optField kk none) = [] := rfl

theorem mem_if_singleton {c : Prop} [Decidable c] {k kk : String} :
    (k ∈ (if c then [kk] else ([] : List String))) ↔ (c ∧ k = kk) := by
  split <;> simp_all

theorem mem_allKeysList_map {α : Type} (f : α → Json) (l : List α) (k : String)
    (h : k ∈ Json.allKeysList (l.map f)) : ∃ x ∈ l, k ∈ (f x).allKeys := by
  induction l with
  | nil => simp [Json.allKeysList] at h
  | cons x xs ih =>
    simp only [List.map_cons, Json.allKeysList, List.mem_append] at h
    rcases h with h | h
    · exact ⟨x, by simp, h⟩
    · obtain ⟨y, hy, hk⟩ := ih h
      exact ⟨y, by simp [hy], hk⟩

theorem serializeExportEntry_allKeys_bound (e : Entry) (k : String)
    (h : k ∈ (serializeExportEntry e).allKeys) :
    k ∈ ["id", "createdAt", "content", "setback", "protective_step", "gratitude",
         "metadata", "dateLocal", "prompt_id", "edited_at", "duration_seconds"] := by
  simp only [serializeExportEntry, Json.allKeys, allKeysFields_append, allKeysFields_cons,
    allKeysFields_nil, allKeysFields_optField_str, allKeysFields_optField_num,
    allKeys_str, allKeys_num, List.append_nil, List.nil_append, List.mem_append,
    List.mem_cons, List.not_mem_nil, or_false, mem_if_singleton] at h
  simp only [List.mem_cons, List.not_mem_nil, or_false]
  tauto

theorem serializeExportPrompt_allKeys_bound (p : Prompt) (k : String)
    (h : k ∈ (serializeExportPrompt p).allKeys) :
    k ∈ ["id", "text", "gratitude_prompt", "archived", "source", "created_at"] := by
  simp only [serializeExportPrompt, Json.allKeys, allKeysFields_append, allKeysFields_cons,
    allKeysFields_nil, allKeysFields_optField_str, allKeys_str, allKeys_bool,
    List.append_nil, List.nil_append, List.mem_append,
    List.mem_cons, List.not_mem_nil, or_false, mem_if_singleton] at h
  simp only [List.mem_cons, List.not_mem_nil, or_false]
  tauto

theorem serializeStreakSummary_allKeys_bound (s : StreakSummary) (k : String)
    (h : k ∈ (serializeStreakSummary s).allKeys) :
    k ∈ ["id", "start_date", "current_streak", "longest_streak", "last_entry_date"] := by
  simp only [serializeStreakSummary, Json.allKeys, allKeysFields_append, allKeysFields_cons,
    allKeysFields_nil, allKeysFields_optField_num, allKeys_str, allKeys_num,
    List.append_nil, List.nil_append, List.mem_append,
    List.mem_cons, List.not_mem_nil, or_false, mem_if_singleton] at h
  simp only [List.mem_cons, List.not_mem_nil, or_false]
  tauto

theorem serializeSanitizedSettings_allKeys_bound (s : Settings) (k : String)
    (h : k ∈ (serializeSanitizedSettings s).allKeys) :
    k ∈ ["id", "lockTimeoutMinutes", "dailyCueTime", "dailyCueEnabled",
         "notificationsEnabled", "telemetryOptIn", "telemetryAnonId",
         "telemetryActivationSent", "telemetryConsecutiveDays",
         "telemetryLastCompletionDate", "telemetryD7EventSent", "swapUsedDate",
         "lastPromptDate", "lastPromptId", "installAt", "currentTheme"] := by
  simp only [serializeSanitizedSettings, Json.allKeys, allKeysFields_append,
    allKeysFields_cons, allKeysFields_nil, allKeysFields_optField_str,
    allKeysFields_optField_num, allKeysFields_optField_bool, allKeysFields_optField_none,
    allKeys_str, allKeys_num, allKeys_bool, List.append_nil, List.nil_append,
    List.mem_append, List.mem_cons, List.not_mem_nil, or_false, mem_if_singleton] at h
  simp only [List.mem_cons, List.not_mem_nil, or_false]
  tauto

theorem mem_of_mem_sub {k : String} {l1 l2 : List String}
    (hsub : l1.all (fun x => decide (x ∈ l2)) = true) (h : k ∈ l1) : k ∈ l2 := by
  have := List.all_eq_true.mp hsub _ h
  simpa using this

/-- Every key occurring anywhere in the export document comes from the
fixed schema of `exportDataWithProgress` — in particular the three PIN
field names are not among them. -/
theorem exportJson_allKeys_bound (db : DB) (exportedAt k : String)
    (h : k ∈ (exportJson db exportedAt).allKeys) :
    k ∈ ["meta", "appName", "appVersion", "exportedAt", "entryCount", "entries",
         "id", "createdAt", "content", "setback", "protective_step", "gratitude",
         "metadata", "dateLocal", "prompt_id", "edited_at", "duration_seconds",
         "settings", "lockTimeoutMinutes", "dailyCueTime", "dailyCueEnabled",
         "notificationsEnabled", "telemetryOptIn", "telemetryAnonId",
         "telemetryActivationSent", "telemetryConsecutiveDays",
         "telemetryLastCompletionDate", "telemetryD7EventSent", "swapUsedDate",
         "lastPromptDate", "lastPromptId", "installAt", "currentTheme",
         "prompts", "text", "gratitude_prompt", "archived", "source", "created_at",
         "streakSummary", "start_date", "current_streak", "longest_streak",
         "last_entry_date"] := by
  cases hset : db.settingsTable <;> cases hstreak : db.streakTable <;>
    simp only [hset, hstreak, exportJson, allKeys_obj, allKeys_arr, allKeys_str,
      allKeys_num, allKeys_null, allKeysFields_append, allKeysFields_cons,
      allKeysFields_nil, List.append_nil, List.nil_append, List.mem_append,
      List.mem_cons, List.not_mem_nil, or_false] at h
  · rcases h with rfl | (rfl | rfl | rfl | rfl) | rfl | hE | rfl | rfl | hP
    · decide
    · decide
    · decide
    · decide
    · decide
    · decide
    · obtain ⟨x, -, hx⟩ := mem_allKeysList_map serializeExportEntry db.entriesTable _ hE
      exact mem_of_mem_sub (by decide) (serializeExportEntry_allKeys_bound x _ hx)
    · decide
    · decide
    · obtain ⟨x, -, hx⟩ := mem_allKeysList_map serializeExportPrompt db.promptsTable _ hP
      exact mem_of_mem_sub (by decide) (serializeExportPrompt_allKeys_bound x _ hx)
  · rcases h with (rfl | (rfl | rfl | rfl | rfl) | rfl | hE | rfl | rfl | hP) | rfl | hK
    · decide
    · decide
    · decide
    · decide
    · decide
    · decide
    · obtain ⟨x, -, hx⟩ := mem_allKeysList_map serializeExportEntry db.entriesTable _ hE
      exact mem_of_mem_sub (by decide) (serializeExportEntry_allKeys_bound x _ hx)
    · decide
    · decide
    · obtain ⟨x, -, hx⟩ := mem_allKeysList_map serializeExportPrompt db.promptsTable _ hP
      exact mem_of_mem_sub (by decide) (serializeExportPrompt_allKeys_bound x _ hx)
    · decide
    · exact mem_of_mem_sub (by decide) (serializeStreakSummary_allKeys_bound _ _ hK)
  · rcases h with rfl | (rfl | rfl | rfl | rfl) | rfl | hE | rfl | hS | rfl | hP
    · decide
    · decide
    · decide
    · decide
    · decide
    · decide
    · obtain ⟨x, -, hx⟩ := mem_allKeysList_map serializeExportEntry db.entriesTable _ hE
      exact mem_of_mem_sub (by decide) (serializeExportEntry_allKeys_bound x _ hx)
    · decide
    · exact mem_of_mem_sub (by decide) (serializeSanitizedSettings_allKeys_bound _ _ hS)
    · decide
    · obtain ⟨x, -, hx⟩ := mem_allKeysList_map serializeExportPrompt db.promptsTable _ hP
      exact mem_of_mem_sub (by decide) (serializeExportPrompt_allKeys_bound x _ hx)
  · rcases h with (rfl | (rfl | rfl | rfl | rfl) | rfl | hE | rfl | hS | rfl | hP) | rfl | hK
    · decide
    · decide
    · decide
    · decide
    · decide
    · decide
    · obtain ⟨x, -, hx⟩ := mem_allKeysList_map serializeExportEntry db.entriesTable _ hE
      exact mem_of_mem_sub (by decide) (serializeExportEntry_allKeys_bound x _ hx)
    · decide
    · exact mem_of_mem_sub (by decide) (serializeSanitizedSettings_allKeys_bound _ _ hS)
    · decide
    · obtain ⟨x, -, hx⟩ := mem_allKeysList_map serializeExportPrompt db.promptsTable _ hP
      exact mem_of_mem_sub (by decide) (serializeExportPrompt_allKeys_bound x _ hx)
    · decide
    · exact mem_of_mem_sub (by decide) (serializeStreakSummary_allKeys_bound _ _ hK)

/-- Claim C9: for every stored state — a PIN configured or not — the JSON
document produced by `exportDataWithProgress` contains no `pinHash`,
`pinSalt` or `pinIterations` key anywhere. -/
theorem exportJson_never_contains_pin_fields (db : DB) (exportedAt : String) :
    "pinHash" ∉ (exportJson db exportedAt).allKeys ∧
    "pinSalt" ∉ (exportJson db exportedAt).allKeys ∧
    "pinIterations" ∉ (exportJson db exportedAt).allKeys := by
  refine ⟨fun h => ?_, fun h => ?_, fun h => ?_⟩
  · have hb := exportJson_allKeys_bound db exportedAt _ h
    revert hb
    decide
  · have hb := exportJson_allKeys_bound db exportedAt _ h
    revert hb
    decide
  · have hb := exportJson_allKeys_bound db exportedAt _ h
    revert hb
    decide

end NegVizJournal
